import Mathlib

/-!
# Verification of `internal/consumers/sarma_consumer.go`

A shallow embedding of package `consumers` (a thin wrapper around the sarama Kafka client)
and theorems about `NewConsumerKafka`, `ConsumerKafka.Close` and
`ConsumerKafka.ListenKafkaMessages`.

The sarama library is external to the package. It is taken as a parameter: a record
`Sarama σ` of the library entry points the package calls (and the `Errors()` channel it leaves
unread), each one a function of an arbitrary library state `σ`. Every theorem quantifies
over all such libraries unless it is a closed statement about one scripted library.

The observable effects of the package (library calls, sends on the caller's channel, log
lines) are appended, in program order, to a trace carried by the `World`.
-/

namespace Consumers

/-! ## Data model -/

/-- A Go `error` value, identified by its message. -/
abbrev GoError := String

/-- The value behind a `sarama.Consumer` interface (the client's consumer handle). -/
abbrev Handle := Nat

/-- The value behind a `sarama.PartitionConsumer` interface. -/
abbrev PartHandle := Nat

/-- Constant `sarama.OffsetNewest`. -/
def OffsetNewest : Int := -1

/-- Constant `sarama.OffsetOldest`. -/
def OffsetOldest : Int := -2

/-- Go type `sarama.ConsumerMessage` (the fields the package or the claims look at).
The package only ever handles non-nil pointers to such messages, as sarama produces them. -/
structure ConsumerMessage where
  Topic : String
  Partition : Int
  Offset : Int
  Key : List Nat
  Value : List Nat
  deriving DecidableEq, Repr

/-- Go type `ConsumerKafka` (source lines 9-12). -/
structure ConsumerKafka where
  brokerAddress : String
  saramaConsumer : Handle
  deriving DecidableEq, Repr

/-- An argument of a logging call. -/
inductive LogArg
  | err (e : GoError)
  | str (s : String)
  | bytesAsString (b : List Nat)
  deriving DecidableEq, Repr

/-- The logging calls of the package, with format string and arguments kept apart. -/
inductive LogCall
  | logrusError (args : List LogArg)
  | logrusErrorf (format : String) (args : List LogArg)
  | logrusInfo (text : String)
  | logrusInfof (format : String) (args : List LogArg)
  | logPrintf (format : String) (args : List LogArg)
  deriving DecidableEq, Repr

/-- One observable effect of the package. -/
inductive Event
  /-- Call `sarama.NewConsumer(addrs, nil)`. -/
  | NewConsumer (addrs : List String)
  /-- Call `Close()` on a `sarama.Consumer`. -/
  | ConsumerClose (h : Handle)
  /-- Call `ConsumePartition(topic, partition, offset)` on a `sarama.Consumer`. -/
  | ConsumePartition (h : Handle) (topic : String) (partition : Int) (offset : Int)
  /-- Call `Close()` on a `sarama.PartitionConsumer`. -/
  | PartitionClose (p : PartHandle)
  /-- A completed send `message <- msg` on the output channel with the given identity. -/
  | send (chan : Nat) (msg : ConsumerMessage)
  /-- A log line. -/
  | log (l : LogCall)
  deriving DecidableEq, Repr

/-- Result of one receive `msg, ok := <-partConsumer.Messages()`. -/
inductive Recv
  /-- A message was received (`ok = true`). -/
  | msg (m : ConsumerMessage)
  /-- The channel is closed (`ok = false`). -/
  | closed
  /-- The channel is open and empty: the receive does not complete. -/
  | blocked
  deriving DecidableEq, Repr

/-- The sarama entry points used by the package, as transitions on a library state `σ`.
`NewConsumer` and `ConsumePartition` return either a value or an error, never both.
`Errors` is the `Errors()` channel of a partition consumer: it is part of the sarama
interface, the package never receives from it. -/
structure Sarama (σ : Type) where
  NewConsumer : List String → σ → Except GoError Handle × σ
  Close : Handle → σ → Option GoError × σ
  ConsumePartition : Handle → String → Int → Int → σ → Except GoError PartHandle × σ
  Messages : PartHandle → σ → Recv × σ
  Errors : PartHandle → σ → List GoError
  PartitionClose : PartHandle → σ → Option GoError × σ

/-- The caller's output channel `message chan<- *sarama.ConsumerMessage`:
its identity and how many sends on it will complete (`none`: every send completes,
`some k`: `k` more sends complete and the next one blocks for good). -/
structure OutChan where
  id : Nat
  room : Option Nat
  deriving DecidableEq, Repr

/-- The state threaded through the package: the library state and the trace of effects. -/
structure World (σ : Type) where
  client : σ
  trace : List Event

/-- Append one effect to the trace. -/
def World.emit {σ : Type} (w : World σ) (e : Event) : World σ :=
  { w with trace := w.trace ++ [e] }

/-- Replace the library state. -/
def World.setClient {σ : Type} (w : World σ) (s : σ) : World σ :=
  { w with client := s }

/-- How a call of `ListenKafkaMessages` stands after a bounded number of loop iterations. -/
inductive Outcome
  /-- The call returned this `error` (`none` is `nil`). -/
  | returned (err : Option GoError)
  /-- The goroutine is parked on `<-partConsumer.Messages()`. -/
  | blockedRecv
  /-- The goroutine is parked on `message <- msg`. -/
  | blockedSend
  /-- The iteration budget ran out with the loop still going. -/
  | running
  deriving DecidableEq, Repr

/-! ## The package -/

/-- Go function `createSaramaConsumer` (source lines 30-38). -/
def createSaramaConsumer {σ : Type} (S : Sarama σ) (brokerAddress : String) (w : World σ) :
    Except GoError Handle × World σ :=
  let r := S.NewConsumer [brokerAddress] w.client
  let w1 := (w.setClient r.2).emit (.NewConsumer [brokerAddress])
  match r.1 with
  | .error err =>
      (.error err, w1.emit (.log (.logrusErrorf "Failed to create consumer: %v" [.err err])))
  | .ok saramaConsumer => (.ok saramaConsumer, w1)

/-- Go function `NewConsumerKafka` (source lines 16-26): the returned pair is
`(*ConsumerKafka, error)`, `none` standing for `nil`. -/
def NewConsumerKafka {σ : Type} (S : Sarama σ) (brokerAddress : String) (w : World σ) :
    (Option ConsumerKafka × Option GoError) × World σ :=
  let r := createSaramaConsumer S brokerAddress w
  match r.1 with
  | .error err => ((none, some err), r.2.emit (.log (.logrusError [.err err])))
  | .ok saramaConsumer =>
      ((some { brokerAddress := brokerAddress, saramaConsumer := saramaConsumer }, none), r.2)

/-- Go method `(*ConsumerKafka).Close` (source lines 42-47). It has no result; the receiver is
returned to make a change of it observable. -/
def ConsumerKafka.Close {σ : Type} (S : Sarama σ) (c : ConsumerKafka) (w : World σ) :
    ConsumerKafka × World σ :=
  let r := S.Close c.saramaConsumer w.client
  let w1 := (w.setClient r.2).emit (.ConsumerClose c.saramaConsumer)
  match r.1 with
  | some err => (c, w1.emit (.log (.logPrintf "Error closing consumer: %v" [.err err])))
  | none => (c, w1)

/-- The deferred function of `ListenKafkaMessages` (source lines 59-64). The first component
is the value of the local variable `err` after the assignment. -/
def deferredClose {σ : Type} (S : Sarama σ) (partConsumer : PartHandle) (w : World σ) :
    Option GoError × World σ :=
  let r := S.PartitionClose partConsumer w.client
  let w1 := (w.setClient r.2).emit (.PartitionClose partConsumer)
  let w2 := match r.1 with
    | some err =>
        w1.emit (.log (.logrusErrorf "Error closing partition consumer: %v" [.err err]))
    | none => w1
  (r.1, w2.emit (.log (.logrusInfo "ConsumerKafka closed")))

/-- The `for { select { ... } }` loop of `ListenKafkaMessages` (source lines 65-76), run for at
most `fuel` iterations. -/
def forwardLoop {σ : Type} (S : Sarama σ) (partConsumer : PartHandle) :
    Nat → OutChan → World σ → Outcome × World σ
  | 0, _, w => (.running, w)
  | fuel + 1, message, w =>
    let r := S.Messages partConsumer w.client
    match r.1 with
    | .blocked => (.blockedRecv, w.setClient r.2)
    | .closed =>
        (.returned none, (w.setClient r.2).emit (.log (.logrusInfof "Channel closed, exiting" [])))
    | .msg msg =>
        let w1 := (w.setClient r.2).emit
          (.log (.logrusInfof "Received message: %+v\n" [.bytesAsString msg.Value]))
        match message.room with
        | some 0 => (.blockedSend, w1)
        | some (k + 1) =>
            forwardLoop S partConsumer fuel { message with room := some k }
              (w1.emit (.send message.id msg))
        | none => forwardLoop S partConsumer fuel message (w1.emit (.send message.id msg))

/-- Go method `(*ConsumerKafka).ListenKafkaMessages` (source lines 52-77), its loop run for at
most `fuel` iterations. The receiver is returned to make a change of it observable. The
result of the call is the value given to `return`; the deferred function assigns the local
`err`, which is not the (unnamed) result. -/
def ConsumerKafka.ListenKafkaMessages {σ : Type} (S : Sarama σ) (c : ConsumerKafka)
    (topicName : String) (message : OutChan) (fuel : Nat) (w : World σ) :
    Outcome × ConsumerKafka × World σ :=
  let r := S.ConsumePartition c.saramaConsumer topicName 0 OffsetNewest w.client
  let w1 := (w.setClient r.2).emit (.ConsumePartition c.saramaConsumer topicName 0 OffsetNewest)
  match r.1 with
  | .error err =>
      (.returned (some err), c,
        w1.emit (.log (.logrusErrorf "Failed to consume partition: %v, topic_name : %s"
          [.err err, .str topicName])))
  | .ok partConsumer =>
      let l := forwardLoop S partConsumer fuel message w1
      match l.1 with
      | .returned ret => (.returned ret, c, (deferredClose S partConsumer l.2).2)
      | o => (o, c, l.2)

/-! ## Reading the trace -/

/-- The completed sends of a trace, in order, each with the channel it went to. -/
def sends : List Event → List (Nat × ConsumerMessage)
  | [] => []
  | .send chan msg :: es => (chan, msg) :: sends es
  | _ :: es => sends es

/-- The partition consumers on which `Close()` was called, in order. -/
def partitionCloses : List Event → List PartHandle
  | [] => []
  | .PartitionClose p :: es => p :: partitionCloses es
  | _ :: es => partitionCloses es

/-- The consumers on which `Close()` was called, in order. -/
def consumerCloses : List Event → List Handle
  | [] => []
  | .ConsumerClose h :: es => h :: consumerCloses es
  | _ :: es => consumerCloses es

/-- The `ConsumePartition` requests of a trace, in order. -/
def subscriptions : List Event → List (Handle × String × Int × Int)
  | [] => []
  | .ConsumePartition h topic partition offset :: es =>
      (h, topic, partition, offset) :: subscriptions es
  | _ :: es => subscriptions es

/-- The log lines of a trace, in order. -/
def logs : List Event → List LogCall
  | [] => []
  | .log l :: es => l :: logs es
  | _ :: es => logs es

/-- The effects a computation added when it took the world `w` to `w1`. -/
def added {σ : Type} (w w1 : World σ) : List Event :=
  w1.trace.drop w.trace.length

/-! ## Describing the library's behaviour -/

/-- Successive receives on `partConsumer.Messages()`, starting in library state `s`, yield
exactly the messages `ms` and then find the channel closed. -/
def Yields {σ : Type} (S : Sarama σ) (p : PartHandle) : List ConsumerMessage → σ → Prop
  | [], s => (S.Messages p s).1 = .closed
  | m :: ms, s => (S.Messages p s).1 = .msg m ∧ Yields S p ms (S.Messages p s).2

/-- Successive receives on `partConsumer.Messages()`, starting in library state `s`, yield
the messages `ms` (and whatever follows). -/
def Produces {σ : Type} (S : Sarama σ) (p : PartHandle) : List ConsumerMessage → σ → Prop
  | [], _ => True
  | m :: ms, s => (S.Messages p s).1 = .msg m ∧ Produces S p ms (S.Messages p s).2

/-- The caller completes at least `n` more sends on the channel. -/
def OutChan.accepts (message : OutChan) (n : Nat) : Prop :=
  match message.room with
  | none => True
  | some k => n ≤ k

/-- The effects of forwarding the messages `ms` to channel `chan`: per message the log line,
then the send. -/
def forwardEvents (chan : Nat) : List ConsumerMessage → List Event
  | [] => []
  | m :: ms =>
      .log (.logrusInfof "Received message: %+v\n" [.bytesAsString m.Value]) ::
        .send chan m :: forwardEvents chan ms

/-! ## Scripted libraries, for concrete runs -/

/-- State of a scripted sarama library: the outcome of each entry point is fixed in
advance. `feed` lists the results of the successive receives on the one partition consumer's
`Messages()` channel: a `blocked` entry is a receive that finds the channel empty (what
follows it arrives later), a receive on an exhausted feed blocks, and a closed channel stays
closed. `errors` is what the partition consumer has reported on its `Errors()` channel. -/
structure Script where
  connect : Except GoError Handle
  closeResult : Option GoError
  subscribe : Except GoError PartHandle
  feed : List Recv
  errors : List GoError
  partCloseResult : Option GoError

/-- The library that plays a `Script`. -/
def scripted : Sarama Script where
  NewConsumer := fun _ s => (s.connect, s)
  Close := fun _ s => (s.closeResult, s)
  ConsumePartition := fun _ _ _ _ s => (s.subscribe, s)
  Messages := fun _ s =>
    match s.feed with
    | [] => (.blocked, s)
    | .closed :: _ => (.closed, s)
    | r :: rest => (r, { s with feed := rest })
  Errors := fun _ s => s.errors
  PartitionClose := fun _ s => (s.partCloseResult, s)

/-- A message at the given offset of partition 0 of topic `orders`. -/
def orderAt (offset : Int) : ConsumerMessage :=
  { Topic := "orders", Partition := 0, Offset := offset, Key := [], Value := [111, 107] }

/-- A session on broker `localhost:9092` holding consumer handle 5. -/
def session5 : ConsumerKafka :=
  { brokerAddress := "localhost:9092", saramaConsumer := 5 }

/-- A healthy script: the subscription yields offsets 10 and 11 and is then closed; closing
the partition consumer fails. -/
def healthy : Script :=
  { connect := .ok 5, closeResult := none, subscribe := .ok 1,
    feed := [.msg (orderAt 10), .msg (orderAt 11), .closed], errors := [],
    partCloseResult := some "partition already closed" }

/-- A script whose subscription stays open: offset 10 is there, the next receive blocks, and
offset 11 arrives later. -/
def streaming : Script :=
  { connect := .ok 5, closeResult := none, subscribe := .ok 1,
    feed := [.msg (orderAt 10), .blocked, .msg (orderAt 11), .blocked], errors := [],
    partCloseResult := none }

/-- A script whose partition consumer reports a read error after offset 10; its Messages
channel is then closed. -/
def failing : Script :=
  { connect := .ok 5, closeResult := none, subscribe := .ok 1,
    feed := [.msg (orderAt 10), .closed],
    errors := ["read tcp: connection reset by peer"], partCloseResult := none }

/-- A world with the given script and an empty trace. -/
def start (s : Script) : World Script :=
  { client := s, trace := [] }

/-- A one-partition broker log: the stored messages and the read position of the consumer. -/
structure PartitionLog where
  stored : List ConsumerMessage
  position : Int

/-- The position a start offset stands for: `OffsetOldest` is the first stored offset,
`OffsetNewest` the offset the next produced message will get, any other value itself. -/
def resolveOffset (stored : List ConsumerMessage) (offset : Int) : Int :=
  if offset = OffsetOldest then
    match stored.head? with
    | some m => m.Offset
    | none => 0
  else if offset = OffsetNewest then
    match stored.getLast? with
    | some m => m.Offset + 1
    | none => 0
  else offset

/-- A library serving one partition log: a subscription starts at the resolved offset and
each receive yields the first stored message at or after the position, or blocks. -/
def logBroker : Sarama PartitionLog where
  NewConsumer := fun _ s => (.ok 5, s)
  Close := fun _ s => (none, s)
  ConsumePartition := fun _ _ _ offset s =>
    (.ok 1, { s with position := resolveOffset s.stored offset })
  Messages := fun _ s =>
    match s.stored.find? (fun m => decide (s.position ≤ m.Offset)) with
    | some m => (.msg m, { s with position := m.Offset + 1 })
    | none => (.blocked, s)
  Errors := fun _ _ => []
  PartitionClose := fun _ s => (none, s)

/-! ## Lemmas on traces -/

@[simp] theorem emit_trace {σ : Type} (w : World σ) (e : Event) :
    (w.emit e).trace = w.trace ++ [e] := rfl

@[simp] theorem emit_client {σ : Type} (w : World σ) (e : Event) :
    (w.emit e).client = w.client := rfl

@[simp] theorem setClient_trace {σ : Type} (w : World σ) (s : σ) :
    (w.setClient s).trace = w.trace := rfl

@[simp] theorem setClient_client {σ : Type} (w : World σ) (s : σ) :
    (w.setClient s).client = s := rfl

theorem sends_append (xs ys : List Event) : sends (xs ++ ys) = sends xs ++ sends ys := by
  induction xs with
  | nil => rfl
  | cons e es ih => cases e <;> simp [sends, ih]

theorem partitionCloses_append (xs ys : List Event) :
    partitionCloses (xs ++ ys) = partitionCloses xs ++ partitionCloses ys := by
  induction xs with
  | nil => rfl
  | cons e es ih => cases e <;> simp [partitionCloses, ih]

theorem consumerCloses_append (xs ys : List Event) :
    consumerCloses (xs ++ ys) = consumerCloses xs ++ consumerCloses ys := by
  induction xs with
  | nil => rfl
  | cons e es ih => cases e <;> simp [consumerCloses, ih]

theorem subscriptions_append (xs ys : List Event) :
    subscriptions (xs ++ ys) = subscriptions xs ++ subscriptions ys := by
  induction xs with
  | nil => rfl
  | cons e es ih => cases e <;> simp [subscriptions, ih]

theorem sends_forwardEvents (chan : Nat) (ms : List ConsumerMessage) :
    sends (forwardEvents chan ms) = ms.map (fun m => (chan, m)) := by
  induction ms with
  | nil => rfl
  | cons m ms ih => simp [forwardEvents, sends, ih]

theorem partitionCloses_forwardEvents (chan : Nat) (ms : List ConsumerMessage) :
    partitionCloses (forwardEvents chan ms) = [] := by
  induction ms with
  | nil => rfl
  | cons m ms ih => simp [forwardEvents, partitionCloses, ih]

theorem subscriptions_forwardEvents (chan : Nat) (ms : List ConsumerMessage) :
    subscriptions (forwardEvents chan ms) = [] := by
  induction ms with
  | nil => rfl
  | cons m ms ih => simp [forwardEvents, subscriptions, ih]

theorem sends_logs (ls : List LogCall) : sends (ls.map Event.log) = [] := by
  induction ls with
  | nil => rfl
  | cons l ls ih => simp [sends, ih]

theorem partitionCloses_logs (ls : List LogCall) : partitionCloses (ls.map Event.log) = [] := by
  induction ls with
  | nil => rfl
  | cons l ls ih => simp [partitionCloses, ih]

theorem subscriptions_logs (ls : List LogCall) : subscriptions (ls.map Event.log) = [] := by
  induction ls with
  | nil => rfl
  | cons l ls ih => simp [subscriptions, ih]

theorem added_append {σ : Type} (w w1 : World σ) (evs : List Event)
    (h : w1.trace = w.trace ++ evs) : added w w1 = evs := by
  simp [added, h]

theorem Yields.produces {σ : Type} (S : Sarama σ) (p : PartHandle) :
    ∀ (ms : List ConsumerMessage) (s : σ), Yields S p ms s → Produces S p ms s
  | [], _, _ => trivial
  | _ :: ms, _, h => ⟨h.1, Yields.produces S p ms _ h.2⟩

/-- A run of messages the channel produces is an initial part of what it yields before it is
closed. -/
theorem Produces.initial_of_yields {σ : Type} (S : Sarama σ) (p : PartHandle) :
    ∀ (ms1 ms : List ConsumerMessage) (s : σ), Produces S p ms1 s → Yields S p ms s →
      ∃ rest, ms = ms1 ++ rest
  | [], ms, _, _, _ => ⟨ms, rfl⟩
  | a :: t, [], _, hp, hy => by
      have h1 := hp.1
      have h2 : (S.Messages p _).1 = Recv.closed := hy
      rw [h2] at h1
      cases h1
  | a :: t, b :: u, _, hp, hy => by
      have hab : b = a := by
        have h1 := hp.1
        rw [hy.1] at h1
        cases h1
        rfl
      obtain ⟨rest, hrest⟩ := Produces.initial_of_yields S p t u _ hp.2 hy.2
      exact ⟨rest, by rw [hab, hrest]; rfl⟩

/-- What the channel yields before it is closed is determined by the library state. -/
theorem Yields.unique {σ : Type} (S : Sarama σ) (p : PartHandle) :
    ∀ (ms1 ms : List ConsumerMessage) (s : σ), Yields S p ms1 s → Yields S p ms s → ms1 = ms
  | [], [], _, _, _ => rfl
  | [], b :: u, _, h1, h2 => by
      have h3 : (S.Messages p _).1 = Recv.closed := h1
      rw [h2.1] at h3
      cases h3
  | a :: t, [], _, h1, h2 => by
      have h3 : (S.Messages p _).1 = Recv.closed := h2
      rw [h1.1] at h3
      cases h3
  | a :: t, b :: u, _, h1, h2 => by
      have hab : a = b := by
        have h3 := h1.1
        rw [h2.1] at h3
        cases h3
        rfl
      rw [hab, Yields.unique S p t u _ h1.2 h2.2]

/-! ## The forwarding loop -/

/-- When the channel yields `ms` and is then closed, the caller takes `ms.length` sends and the
budget covers `ms.length + 1` iterations, the loop leaves by `return nil`, having logged and
sent each message in turn. -/
theorem forwardLoop_closed {σ : Type} (S : Sarama σ) (p : PartHandle) :
    ∀ (ms : List ConsumerMessage) (fuel : Nat) (message : OutChan) (w : World σ),
      Yields S p ms w.client → message.accepts ms.length → ms.length < fuel →
      (forwardLoop S p fuel message w).1 = .returned none ∧
      (forwardLoop S p fuel message w).2.trace =
        w.trace ++ forwardEvents message.id ms ++
          [.log (.logrusInfof "Channel closed, exiting" [])] := by
  intro ms
  induction ms with
  | nil =>
    intro fuel message w hy _ hf
    obtain ⟨f, rfl⟩ : ∃ f, fuel = f + 1 := ⟨fuel - 1, by simp at hf; omega⟩
    simp only [Yields] at hy
    simp [forwardLoop, hy, forwardEvents]
  | cons m ms ih =>
    intro fuel message w hy ha hf
    obtain ⟨f, rfl⟩ : ∃ f, fuel = f + 1 := ⟨fuel - 1, by simp at hf; omega⟩
    obtain ⟨hm, hrest⟩ := hy
    have hf1 : ms.length < f := by simp at hf; omega
    rcases message with ⟨id, room⟩
    cases room with
    | none =>
      have := ih f ⟨id, none⟩ ((w.setClient (S.Messages p w.client).2).emit
        (.log (.logrusInfof "Received message: %+v\n" [.bytesAsString m.Value])) |>.emit
          (.send id m)) hrest trivial hf1
      simp [forwardLoop, hm, forwardEvents, this]
    | some k =>
      have hk : ms.length + 1 ≤ k := ha
      obtain ⟨k1, rfl⟩ : ∃ k1, k = k1 + 1 := ⟨k - 1, by omega⟩
      have := ih f ⟨id, some k1⟩ ((w.setClient (S.Messages p w.client).2).emit
        (.log (.logrusInfof "Received message: %+v\n" [.bytesAsString m.Value])) |>.emit
          (.send id m)) hrest (by show ms.length ≤ k1; omega) hf1
      simp [forwardLoop, hm, forwardEvents, this]

/-- Whatever the budget and the outcome, the loop has forwarded a run of messages the channel
produced, each logged and then sent, followed by log lines only; and it leaves by `return`
only with `nil` and only once the channel is found closed. -/
theorem forwardLoop_trace {σ : Type} (S : Sarama σ) (p : PartHandle) :
    ∀ (fuel : Nat) (message : OutChan) (w : World σ),
      ∃ (ms : List ConsumerMessage) (ls : List LogCall),
        Produces S p ms w.client ∧
        (forwardLoop S p fuel message w).2.trace =
          w.trace ++ forwardEvents message.id ms ++ ls.map Event.log ∧
        (∀ r, (forwardLoop S p fuel message w).1 = .returned r →
          r = none ∧ Yields S p ms w.client) := by
  intro fuel
  induction fuel with
  | zero =>
    intro message w
    exact ⟨[], [], trivial, by simp [forwardLoop, forwardEvents], by simp [forwardLoop]⟩
  | succ f ih =>
    intro message w
    rcases hr : (S.Messages p w.client).1 with m | _ | _
    · rcases message with ⟨id, room⟩
      have key : ∀ message1 : OutChan, message1.id = id →
          ∃ (ms : List ConsumerMessage) (ls : List LogCall),
            Produces S p ms w.client ∧
            (forwardLoop S p f message1 ((w.setClient (S.Messages p w.client).2).emit
              (.log (.logrusInfof "Received message: %+v\n" [.bytesAsString m.Value]))
                |>.emit (.send id m))).2.trace =
              w.trace ++ forwardEvents id ms ++ ls.map Event.log ∧
            (∀ r, (forwardLoop S p f message1 ((w.setClient (S.Messages p w.client).2).emit
              (.log (.logrusInfof "Received message: %+v\n" [.bytesAsString m.Value]))
                |>.emit (.send id m))).1 = .returned r →
              r = none ∧ Yields S p ms w.client) := by
        intro message1 hid
        obtain ⟨ms, ls, hp, ht, hret⟩ := ih message1
          ((w.setClient (S.Messages p w.client).2).emit
            (.log (.logrusInfof "Received message: %+v\n" [.bytesAsString m.Value]))
              |>.emit (.send id m))
        refine ⟨m :: ms, ls, ⟨hr, by simpa using hp⟩, ?_, ?_⟩
        · rw [ht, hid]; simp [forwardEvents]
        · intro r h
          obtain ⟨h1, h2⟩ := hret r h
          exact ⟨h1, hr, by simpa using h2⟩
      cases room with
      | none => simpa [forwardLoop, hr] using key ⟨id, none⟩ rfl
      | some k =>
        cases k with
        | zero =>
          refine ⟨[], [.logrusInfof "Received message: %+v\n" [.bytesAsString m.Value]],
            trivial, by simp [forwardLoop, hr, forwardEvents], by simp [forwardLoop, hr]⟩
        | succ k1 => simpa [forwardLoop, hr] using key ⟨id, some k1⟩ rfl
    · refine ⟨[], [.logrusInfof "Channel closed, exiting" []], trivial,
        by simp [forwardLoop, hr, forwardEvents], ?_⟩
      intro r h
      simp [forwardLoop, hr] at h
      exact ⟨h.symm, hr⟩
    · exact ⟨[], [], trivial, by simp [forwardLoop, hr, forwardEvents],
        by simp [forwardLoop, hr]⟩

/-! ## The deferred close and the whole call -/

/-- The deferred function calls `Close()` on the partition consumer once and then only logs. -/
theorem deferredClose_trace {σ : Type} (S : Sarama σ) (p : PartHandle) (w : World σ) :
    ∃ ls : List LogCall,
      (deferredClose S p w).2.trace = w.trace ++ Event.PartitionClose p :: ls.map Event.log := by
  rcases h : (S.PartitionClose p w.client).1 with _ | e
  · exact ⟨[.logrusInfo "ConsumerKafka closed"], by simp [deferredClose, h]⟩
  · exact ⟨[.logrusErrorf "Error closing partition consumer: %v" [.err e],
      .logrusInfo "ConsumerKafka closed"], by simp [deferredClose, h]⟩

/-- A call whose subscription succeeds and whose channel yields `ms` and is then closed returns
`nil`; its effects are the subscription request, the forwarding of `ms`, and the close of the
partition consumer, with log lines in between. -/
theorem listen_closed {σ : Type} (S : Sarama σ) (c : ConsumerKafka) (topicName : String)
    (message : OutChan) (fuel : Nat) (w : World σ) (p : PartHandle)
    (ms : List ConsumerMessage)
    (hsub : (S.ConsumePartition c.saramaConsumer topicName 0 OffsetNewest w.client).1 = .ok p)
    (hy : Yields S p ms
      (S.ConsumePartition c.saramaConsumer topicName 0 OffsetNewest w.client).2)
    (hroom : message.accepts ms.length) (hfuel : ms.length < fuel) :
    (ConsumerKafka.ListenKafkaMessages S c topicName message fuel w).1 = .returned none ∧
    ∃ ls : List LogCall,
      (ConsumerKafka.ListenKafkaMessages S c topicName message fuel w).2.2.trace =
        w.trace ++ Event.ConsumePartition c.saramaConsumer topicName 0 OffsetNewest ::
          (forwardEvents message.id ms ++
            Event.log (.logrusInfof "Channel closed, exiting" []) ::
              Event.PartitionClose p :: ls.map Event.log) := by
  obtain ⟨h1, h2⟩ := forwardLoop_closed S p ms fuel message
    ((w.setClient (S.ConsumePartition c.saramaConsumer topicName 0 OffsetNewest w.client).2).emit
      (.ConsumePartition c.saramaConsumer topicName 0 OffsetNewest)) (by simpa using hy)
    hroom hfuel
  obtain ⟨ls, hls⟩ := deferredClose_trace S p (forwardLoop S p fuel message
    ((w.setClient (S.ConsumePartition c.saramaConsumer topicName 0 OffsetNewest w.client).2).emit
      (.ConsumePartition c.saramaConsumer topicName 0 OffsetNewest))).2
  refine ⟨by simp [ConsumerKafka.ListenKafkaMessages, hsub, h1], ls, ?_⟩
  simp [ConsumerKafka.ListenKafkaMessages, hsub, h1, hls, h2]

/-- A call whose subscription succeeds, at any budget: its effects are the subscription request
and the forwarding of messages the channel produced, with log lines; it has returned only with
`nil`, only after the channel was found closed, and then (and only then) it has closed the
partition consumer, once. -/
theorem listen_ok {σ : Type} (S : Sarama σ) (c : ConsumerKafka) (topicName : String)
    (message : OutChan) (fuel : Nat) (w : World σ) (p : PartHandle)
    (hsub : (S.ConsumePartition c.saramaConsumer topicName 0 OffsetNewest w.client).1 = .ok p) :
    ∃ (ms : List ConsumerMessage) (ls : List LogCall) (tail : List Event),
      Produces S p ms (S.ConsumePartition c.saramaConsumer topicName 0 OffsetNewest w.client).2 ∧
      (ConsumerKafka.ListenKafkaMessages S c topicName message fuel w).2.2.trace =
        w.trace ++ Event.ConsumePartition c.saramaConsumer topicName 0 OffsetNewest ::
          (forwardEvents message.id ms ++ ls.map Event.log ++ tail) ∧
      (((ConsumerKafka.ListenKafkaMessages S c topicName message fuel w).1 = .returned none ∧
          Yields S p ms
            (S.ConsumePartition c.saramaConsumer topicName 0 OffsetNewest w.client).2 ∧
          ∃ ls1 : List LogCall, tail = Event.PartitionClose p :: ls1.map Event.log) ∨
        ((∀ r, (ConsumerKafka.ListenKafkaMessages S c topicName message fuel w).1 ≠
            .returned r) ∧ tail = [])) := by
  obtain ⟨ms, ls, hp, ht, hret⟩ := forwardLoop_trace S p fuel message
    ((w.setClient (S.ConsumePartition c.saramaConsumer topicName 0 OffsetNewest w.client).2).emit
      (.ConsumePartition c.saramaConsumer topicName 0 OffsetNewest))
  rcases ho : (forwardLoop S p fuel message
    ((w.setClient (S.ConsumePartition c.saramaConsumer topicName 0 OffsetNewest w.client).2).emit
      (.ConsumePartition c.saramaConsumer topicName 0 OffsetNewest))).1 with r | _ | _ | _
  · obtain ⟨hr, hy⟩ := hret r ho
    subst hr
    obtain ⟨ls1, hls1⟩ := deferredClose_trace S p (forwardLoop S p fuel message
      ((w.setClient
        (S.ConsumePartition c.saramaConsumer topicName 0 OffsetNewest w.client).2).emit
          (.ConsumePartition c.saramaConsumer topicName 0 OffsetNewest))).2
    refine ⟨ms, ls, Event.PartitionClose p :: ls1.map Event.log, by simpa using hp, ?_,
      Or.inl ⟨by simp [ConsumerKafka.ListenKafkaMessages, hsub, ho], by simpa using hy,
        ls1, rfl⟩⟩
    simp [ConsumerKafka.ListenKafkaMessages, hsub, ho, hls1, ht]
  all_goals
    refine ⟨ms, ls, [], by simpa using hp, ?_,
      Or.inr ⟨by simp [ConsumerKafka.ListenKafkaMessages, hsub, ho], rfl⟩⟩
    simp [ConsumerKafka.ListenKafkaMessages, hsub, ho, ht]

/-- The method `Close` requests one `Close` of the consumer handle and then only logs. -/
theorem Close_trace {σ : Type} (S : Sarama σ) (c : ConsumerKafka) (w : World σ) :
    (ConsumerKafka.Close S c w).1 = c ∧
    ∃ ls : List LogCall, (ConsumerKafka.Close S c w).2.trace =
      w.trace ++ Event.ConsumerClose c.saramaConsumer :: ls.map Event.log := by
  rcases h : (S.Close c.saramaConsumer w.client).1 with _ | e
  · exact ⟨by simp [ConsumerKafka.Close, h], [], by simp [ConsumerKafka.Close, h]⟩
  · exact ⟨by simp [ConsumerKafka.Close, h],
      [.logPrintf "Error closing consumer: %v" [.err e]], by simp [ConsumerKafka.Close, h]⟩

theorem consumerCloses_logs (ls : List LogCall) : consumerCloses (ls.map Event.log) = [] := by
  induction ls with
  | nil => rfl
  | cons l ls ih => simp [consumerCloses, ih]

/-- The loop never looks at what the partition consumer reports on `Errors()`. -/
theorem forwardLoop_ignores_errors {σ : Type} (S : Sarama σ)
    (E : PartHandle → σ → List GoError) (p : PartHandle) :
    ∀ (fuel : Nat) (message : OutChan) (w : World σ),
      forwardLoop { S with Errors := E } p fuel message w = forwardLoop S p fuel message w := by
  intro fuel
  induction fuel with
  | zero => intro message w; rfl
  | succ f ih =>
    intro message w
    rcases hr : (S.Messages p w.client).1 with m | _ | _
    · rcases message with ⟨id, room⟩
      rcases room with _ | _ | k <;> simp [forwardLoop, hr, ih]
    · simp [forwardLoop, hr]
    · simp [forwardLoop, hr]

/-- Every run of messages the healthy script produces is an initial part of offsets 10, 11. -/
theorem healthy_increasing (ms : List ConsumerMessage) (h : Produces scripted 1 ms healthy) :
    (ms.map (fun m => m.Offset)).Pairwise (fun a b => a < b) := by
  rcases ms with _ | ⟨a, _ | ⟨b, _ | ⟨d, t⟩⟩⟩
  · simp
  · simp
  · obtain ⟨ha, hb, _⟩ := h
    simp [scripted, healthy] at ha hb
    subst ha; subst hb
    simp [orderAt]
  · obtain ⟨_, _, hd, _⟩ := h
    simp [scripted, healthy] at hd

/-! ## Claims -/

/-- C1: after a successful subscription, let the partition consumer's Messages channel yield
the messages `ms` and then be closed. At every point of the call the sends made, on any
channel, are an initial part of `ms` in order, unaltered, on the caller's output channel; once
the call has returned they are exactly `ms`; and the call does return when the caller takes
every send and the budget covers the run. -/
theorem ListenKafkaMessages_forwards_exactly {σ : Type} (S : Sarama σ) (c : ConsumerKafka)
    (topicName : String) (message : OutChan) (fuel : Nat) (w : World σ) (p : PartHandle)
    (ms : List ConsumerMessage)
    (hsub : (S.ConsumePartition c.saramaConsumer topicName 0 OffsetNewest w.client).1 = .ok p)
    (hy : Yields S p ms
      (S.ConsumePartition c.saramaConsumer topicName 0 OffsetNewest w.client).2) :
    (∃ rest,
      sends (added w (ConsumerKafka.ListenKafkaMessages S c topicName message fuel w).2.2) ++
        rest = ms.map (fun m => (message.id, m))) ∧
    (∀ r, (ConsumerKafka.ListenKafkaMessages S c topicName message fuel w).1 = .returned r →
      sends (added w (ConsumerKafka.ListenKafkaMessages S c topicName message fuel w).2.2) =
        ms.map (fun m => (message.id, m))) ∧
    (message.accepts ms.length → ms.length < fuel →
      (ConsumerKafka.ListenKafkaMessages S c topicName message fuel w).1 = .returned none ∧
      sends (added w (ConsumerKafka.ListenKafkaMessages S c topicName message fuel w).2.2) =
        ms.map (fun m => (message.id, m))) := by
  obtain ⟨ms1, ls, tail, hp, ht, hcase⟩ := listen_ok S c topicName message fuel w p hsub
  have htail : sends tail = [] := by
    rcases hcase with ⟨_, _, ls1, rfl⟩ | ⟨_, rfl⟩
    · simp [sends, sends_logs]
    · rfl
  have hsent :
      sends (added w (ConsumerKafka.ListenKafkaMessages S c topicName message fuel w).2.2) =
        ms1.map (fun m => (message.id, m)) := by
    rw [added_append w _ _ ht]
    simp [sends, sends_append, sends_forwardEvents, sends_logs, htail]
  have hret : ∀ r,
      (ConsumerKafka.ListenKafkaMessages S c topicName message fuel w).1 = .returned r →
      sends (added w (ConsumerKafka.ListenKafkaMessages S c topicName message fuel w).2.2) =
        ms.map (fun m => (message.id, m)) := by
    intro r hr
    rcases hcase with ⟨_, hy1, _⟩ | ⟨h1, _⟩
    · rw [hsent, Yields.unique S p ms1 ms _ hy1 hy]
    · exact absurd hr (h1 r)
  refine ⟨?_, hret, ?_⟩
  · obtain ⟨rest, hrest⟩ := Produces.initial_of_yields S p ms1 ms _ hp hy
    exact ⟨rest.map (fun m => (message.id, m)), by rw [hsent, hrest, List.map_append]⟩
  · intro hroom hfuel
    have h1 := (listen_closed S c topicName message fuel w p ms hsub hy hroom hfuel).1
    exact ⟨h1, hret none h1⟩

/-- Witness of C1: the healthy script yields offsets 10 and 11 and closes; both are sent. -/
theorem ListenKafkaMessages_forwards_exactly_witness :
    (scripted.ConsumePartition session5.saramaConsumer "orders" 0 OffsetNewest
      (start healthy).client).1 = .ok 1 ∧
    Yields scripted 1 [orderAt 10, orderAt 11] healthy ∧
    OutChan.accepts ⟨7, some 2⟩ 2 ∧ 2 < 3 ∧
    (ConsumerKafka.ListenKafkaMessages scripted session5 "orders" ⟨7, some 2⟩ 3
      (start healthy)).1 = .returned none ∧
    sends (added (start healthy) (ConsumerKafka.ListenKafkaMessages scripted session5 "orders"
      ⟨7, some 2⟩ 3 (start healthy)).2.2) = [(7, orderAt 10), (7, orderAt 11)] :=
  ⟨rfl, ⟨rfl, rfl, rfl⟩, Nat.le_refl 2, by decide,
    (ListenKafkaMessages_forwards_exactly scripted session5 "orders" ⟨7, some 2⟩ 3
      (start healthy) 1 [orderAt 10, orderAt 11] rfl ⟨rfl, rfl, rfl⟩).2.2 (Nat.le_refl 2)
      (by decide)⟩

/-- C2: after a successful subscription, if every run of messages the partition consumer
produces has strictly increasing offsets, then at every point of the call the messages sent
so far have strictly increasing offsets. -/
theorem ListenKafkaMessages_offsets_increasing {σ : Type} (S : Sarama σ) (c : ConsumerKafka)
    (topicName : String) (message : OutChan) (fuel : Nat) (w : World σ) (p : PartHandle)
    (hsub : (S.ConsumePartition c.saramaConsumer topicName 0 OffsetNewest w.client).1 = .ok p)
    (hinc : ∀ ms : List ConsumerMessage,
      Produces S p ms (S.ConsumePartition c.saramaConsumer topicName 0 OffsetNewest w.client).2 →
        (ms.map (fun m => m.Offset)).Pairwise (fun a b => a < b)) :
    ((sends (added w (ConsumerKafka.ListenKafkaMessages S c topicName message fuel w).2.2)).map
      (fun x => x.2.Offset)).Pairwise (fun a b => a < b) := by
  obtain ⟨ms, ls, tail, hp, ht, hcase⟩ := listen_ok S c topicName message fuel w p hsub
  rw [added_append w _ _ ht]
  have htail : sends tail = [] := by
    rcases hcase with ⟨_, _, ls1, rfl⟩ | ⟨_, rfl⟩
    · simp [sends, sends_logs]
    · rfl
  have := hinc ms hp
  simpa [sends, sends_append, sends_forwardEvents, sends_logs, htail, Function.comp_def]
    using this

/-- Witness of C2: the healthy script produces offsets 10 and 11, and they are what is sent. -/
theorem ListenKafkaMessages_offsets_increasing_witness :
    (scripted.ConsumePartition session5.saramaConsumer "orders" 0 OffsetNewest
      (start healthy).client).1 = .ok 1 ∧
    (∀ ms : List ConsumerMessage, Produces scripted 1 ms healthy →
      (ms.map (fun m => m.Offset)).Pairwise (fun a b => a < b)) ∧
    ((sends (added (start healthy) (ConsumerKafka.ListenKafkaMessages scripted session5
      "orders" ⟨7, none⟩ 5 (start healthy)).2.2)).map (fun x => x.2.Offset)).Pairwise
        (fun a b => a < b) ∧
    (sends (added (start healthy) (ConsumerKafka.ListenKafkaMessages scripted session5
      "orders" ⟨7, none⟩ 5 (start healthy)).2.2)).map (fun x => x.2.Offset) = [10, 11] :=
  ⟨rfl, healthy_increasing,
    ListenKafkaMessages_offsets_increasing scripted session5 "orders" ⟨7, none⟩ 5
      (start healthy) 1 rfl healthy_increasing, rfl⟩

/-- C3: `NewConsumerKafka` asks the client once, for the broker list `[brokerAddress]`. If the
client fails, the result is a nil consumer and exactly the client's error; otherwise the error
is nil and the consumer holds `brokerAddress` and the client's handle. The returned error is
non-nil exactly when the client failed. -/
theorem NewConsumerKafka_result {σ : Type} (S : Sarama σ) (brokerAddress : String)
    (w : World σ) :
    (match (S.NewConsumer [brokerAddress] w.client).1 with
      | .error e =>
          (NewConsumerKafka S brokerAddress w).1 = (none, some e) ∧
          added w (NewConsumerKafka S brokerAddress w).2 =
            [.NewConsumer [brokerAddress],
              .log (.logrusErrorf "Failed to create consumer: %v" [.err e]),
              .log (.logrusError [.err e])]
      | .ok h =>
          (NewConsumerKafka S brokerAddress w).1 =
            (some { brokerAddress := brokerAddress, saramaConsumer := h }, none) ∧
          added w (NewConsumerKafka S brokerAddress w).2 = [.NewConsumer [brokerAddress]]) ∧
    ((NewConsumerKafka S brokerAddress w).1.2 ≠ none ↔
      ∃ e, (S.NewConsumer [brokerAddress] w.client).1 = .error e) := by
  rcases h : (S.NewConsumer [brokerAddress] w.client).1 with e | hd
  · simp [NewConsumerKafka, createSaramaConsumer, h, added]
  · simp [NewConsumerKafka, createSaramaConsumer, h, added]

/-- C4: if the client's `ConsumePartition` fails, `ListenKafkaMessages` returns exactly that
error at once; it has sent nothing, closed no partition consumer and no consumer, made the one
subscription request and logged it, and the `ConsumerKafka` value is unchanged. -/
theorem ListenKafkaMessages_subscribe_error {σ : Type} (S : Sarama σ) (c : ConsumerKafka)
    (topicName : String) (message : OutChan) (fuel : Nat) (w : World σ) (e : GoError)
    (hfail : (S.ConsumePartition c.saramaConsumer topicName 0 OffsetNewest w.client).1 =
      .error e) :
    (ConsumerKafka.ListenKafkaMessages S c topicName message fuel w).1 = .returned (some e) ∧
    (ConsumerKafka.ListenKafkaMessages S c topicName message fuel w).2.1 = c ∧
    added w (ConsumerKafka.ListenKafkaMessages S c topicName message fuel w).2.2 =
      [.ConsumePartition c.saramaConsumer topicName 0 OffsetNewest,
        .log (.logrusErrorf "Failed to consume partition: %v, topic_name : %s"
          [.err e, .str topicName])] ∧
    sends (added w (ConsumerKafka.ListenKafkaMessages S c topicName message fuel w).2.2) = [] ∧
    partitionCloses
      (added w (ConsumerKafka.ListenKafkaMessages S c topicName message fuel w).2.2) = [] ∧
    consumerCloses
      (added w (ConsumerKafka.ListenKafkaMessages S c topicName message fuel w).2.2) = [] := by
  simp [ConsumerKafka.ListenKafkaMessages, hfail, added, sends, partitionCloses,
    consumerCloses]

/-- Witness of C4: a script whose subscription is refused. -/
theorem ListenKafkaMessages_subscribe_error_witness :
    (scripted.ConsumePartition session5.saramaConsumer "missing" 0 OffsetNewest
      (start { healthy with subscribe := .error "unknown topic or partition" }).client).1 =
        .error "unknown topic or partition" ∧
    (ConsumerKafka.ListenKafkaMessages scripted session5 "missing" ⟨7, none⟩ 3
      (start { healthy with subscribe := .error "unknown topic or partition" })).1 =
        .returned (some "unknown topic or partition") :=
  ⟨rfl, (ListenKafkaMessages_subscribe_error scripted session5 "missing" ⟨7, none⟩ 3
    (start { healthy with subscribe := .error "unknown topic or partition" })
    "unknown topic or partition" rfl).1⟩

/-- C5: for a `ConsumerKafka` produced by a successful `NewConsumerKafka`, `Close` (which has
no result to fail with) makes one `Close` request on the handle the client gave at
construction, leaves the value unchanged, and, when the client's `Close` reports an error,
only adds one log line carrying it. -/
theorem Close_never_fails {σ : Type} (S : Sarama σ) (brokerAddress : String) (w0 w : World σ)
    (c : ConsumerKafka) (hnew : (NewConsumerKafka S brokerAddress w0).1.1 = some c) :
    (S.NewConsumer [brokerAddress] w0.client).1 = .ok c.saramaConsumer ∧
    (ConsumerKafka.Close S c w).1 = c ∧
    added w (ConsumerKafka.Close S c w).2 =
      Event.ConsumerClose c.saramaConsumer ::
        (match (S.Close c.saramaConsumer w.client).1 with
          | none => []
          | some err => [.log (.logPrintf "Error closing consumer: %v" [.err err])]) := by
  refine ⟨?_, ?_, ?_⟩
  · rcases h : (S.NewConsumer [brokerAddress] w0.client).1 with e | hd
    · simp [NewConsumerKafka, createSaramaConsumer, h] at hnew
    · simp [NewConsumerKafka, createSaramaConsumer, h] at hnew
      rw [← hnew]
  · rcases h : (S.Close c.saramaConsumer w.client).1 with _ | e <;>
      simp [ConsumerKafka.Close, h]
  · rcases h : (S.Close c.saramaConsumer w.client).1 with _ | e <;>
      simp [ConsumerKafka.Close, h, added]

/-- Witness of C5: a session built on a script whose `Close` reports an error. -/
theorem Close_never_fails_witness :
    (NewConsumerKafka scripted "localhost:9092"
      (start { healthy with closeResult := some "broker not connected" })).1.1 =
        some session5 ∧
    added (start { healthy with closeResult := some "broker not connected" })
      (ConsumerKafka.Close scripted session5
        (start { healthy with closeResult := some "broker not connected" })).2 =
      [.ConsumerClose 5,
        .log (.logPrintf "Error closing consumer: %v" [.err "broker not connected"])] :=
  ⟨rfl, (Close_never_fails scripted "localhost:9092"
    (start { healthy with closeResult := some "broker not connected" })
    (start { healthy with closeResult := some "broker not connected" }) session5 rfl).2.2⟩

/-- C6, as stated, fails: on the healthy script a second `Close` leaves a trace different from
the one after a single `Close`, because it sends a further close request to the client. -/
theorem Close_second_call_closes_again :
    (ConsumerKafka.Close scripted session5
      (ConsumerKafka.Close scripted session5 (start healthy)).2).2.trace ≠
      (ConsumerKafka.Close scripted session5 (start healthy)).2.trace ∧
    consumerCloses (added (ConsumerKafka.Close scripted session5 (start healthy)).2
      (ConsumerKafka.Close scripted session5
        (ConsumerKafka.Close scripted session5 (start healthy)).2).2) = [5] := by
  decide

/-- C6, amended: `Close` leaves the `ConsumerKafka` value unchanged, and every call makes
exactly one close request on the client's consumer handle, so two calls in a row make two. -/
theorem Close_requests_close_every_call {σ : Type} (S : Sarama σ) (c : ConsumerKafka)
    (w : World σ) :
    (ConsumerKafka.Close S c w).1 = c ∧
    (ConsumerKafka.Close S (ConsumerKafka.Close S c w).1 (ConsumerKafka.Close S c w).2).1 = c ∧
    consumerCloses (added w (ConsumerKafka.Close S c w).2) = [c.saramaConsumer] ∧
    consumerCloses (added (ConsumerKafka.Close S c w).2
      (ConsumerKafka.Close S (ConsumerKafka.Close S c w).1 (ConsumerKafka.Close S c w).2).2) =
        [c.saramaConsumer] ∧
    consumerCloses (added w
      (ConsumerKafka.Close S (ConsumerKafka.Close S c w).1 (ConsumerKafka.Close S c w).2).2) =
        [c.saramaConsumer, c.saramaConsumer] := by
  obtain ⟨hc, ls, h1⟩ := Close_trace S c w
  obtain ⟨hc2, ls2, h2⟩ := Close_trace S c (ConsumerKafka.Close S c w).2
  rw [hc]
  refine ⟨rfl, hc2, ?_, ?_, ?_⟩
  · rw [added_append w _ _ h1]
    simp [consumerCloses, consumerCloses_logs]
  · rw [added_append _ _ _ h2]
    simp [consumerCloses, consumerCloses_logs]
  · rw [h1, List.append_assoc] at h2
    rw [added_append w _ _ h2]
    simp [consumerCloses, consumerCloses_append, consumerCloses_logs]

/-- C7, as stated, fails: on the streaming script one subscription is active (its call is
parked on the receive), `Close` then only closes the consumer handle and no partition
consumer, and the forwarding loop, resumed after `Close` has returned, sends offset 11. -/
theorem Close_leaves_subscription_running :
    (ConsumerKafka.ListenKafkaMessages scripted session5 "orders" ⟨7, none⟩ 5
      (start streaming)).1 = .blockedRecv ∧
    added (ConsumerKafka.ListenKafkaMessages scripted session5 "orders" ⟨7, none⟩ 5
        (start streaming)).2.2
      (ConsumerKafka.Close scripted session5
        (ConsumerKafka.ListenKafkaMessages scripted session5 "orders" ⟨7, none⟩ 5
          (start streaming)).2.2).2 = [.ConsumerClose 5] ∧
    partitionCloses (ConsumerKafka.Close scripted session5
      (ConsumerKafka.ListenKafkaMessages scripted session5 "orders" ⟨7, none⟩ 5
        (start streaming)).2.2).2.trace = [] ∧
    sends (added
      (ConsumerKafka.Close scripted session5
        (ConsumerKafka.ListenKafkaMessages scripted session5 "orders" ⟨7, none⟩ 5
          (start streaming)).2.2).2
      (forwardLoop scripted 1 5 ⟨7, none⟩
        (ConsumerKafka.Close scripted session5
          (ConsumerKafka.ListenKafkaMessages scripted session5 "orders" ⟨7, none⟩ 5
            (start streaming)).2.2).2).2) = [(7, orderAt 11)] := by
  decide

/-- C7, amended: whatever subscriptions are active, `Close` makes exactly one close request,
on the client's consumer handle; it closes no partition consumer and sends nothing. -/
theorem Close_closes_only_the_consumer {σ : Type} (S : Sarama σ) (c : ConsumerKafka)
    (w : World σ) :
    consumerCloses (added w (ConsumerKafka.Close S c w).2) = [c.saramaConsumer] ∧
    partitionCloses (added w (ConsumerKafka.Close S c w).2) = [] ∧
    sends (added w (ConsumerKafka.Close S c w).2) = [] := by
  obtain ⟨_, ls, h1⟩ := Close_trace S c w
  rw [added_append w _ _ h1]
  simp [consumerCloses, consumerCloses_logs, partitionCloses, partitionCloses_logs, sends,
    sends_logs]

/-- C8, as stated, fails: asked to read topic `orders`, the only subscription request is for
partition 0 at `OffsetNewest`, not at `OffsetOldest` (earliest); and on a broker log holding
offsets 10, 11, 12, which a subscription at `OffsetOldest` would produce, the call sends
nothing and parks on the receive. -/
theorem ListenKafkaMessages_not_from_earliest :
    subscriptions (added (start healthy) (ConsumerKafka.ListenKafkaMessages scripted session5
      "orders" ⟨7, none⟩ 5 (start healthy)).2.2) ≠ [(5, "orders", 0, OffsetOldest)] ∧
    Produces logBroker 1 [orderAt 10, orderAt 11, orderAt 12]
      (logBroker.ConsumePartition 5 "orders" 0 OffsetOldest
        ⟨[orderAt 10, orderAt 11, orderAt 12], 0⟩).2 ∧
    (ConsumerKafka.ListenKafkaMessages logBroker session5 "orders" ⟨7, none⟩ 5
      ⟨⟨[orderAt 10, orderAt 11, orderAt 12], 0⟩, []⟩).1 = .blockedRecv ∧
    sends (ConsumerKafka.ListenKafkaMessages logBroker session5 "orders" ⟨7, none⟩ 5
      ⟨⟨[orderAt 10, orderAt 11, orderAt 12], 0⟩, []⟩).2.2.trace = [] := by
  refine ⟨by decide, ⟨rfl, rfl, rfl, trivial⟩, by decide, by decide⟩

/-- C8, amended: for every topic name, `ListenKafkaMessages` makes exactly one subscription
request, for that topic, partition 0 and start offset `OffsetNewest`. -/
theorem ListenKafkaMessages_requests_partition_zero_newest {σ : Type} (S : Sarama σ)
    (c : ConsumerKafka) (topicName : String) (message : OutChan) (fuel : Nat) (w : World σ) :
    subscriptions (added w (ConsumerKafka.ListenKafkaMessages S c topicName message fuel w).2.2) =
      [(c.saramaConsumer, topicName, 0, OffsetNewest)] := by
  rcases h : (S.ConsumePartition c.saramaConsumer topicName 0 OffsetNewest w.client).1 with
    e | p
  · simp [ConsumerKafka.ListenKafkaMessages, h, added, subscriptions]
  · obtain ⟨ms, ls, tail, _, ht, hcase⟩ := listen_ok S c topicName message fuel w p h
    rw [added_append w _ _ ht]
    have htail : subscriptions tail = [] := by
      rcases hcase with ⟨_, _, ls1, rfl⟩ | ⟨_, rfl⟩
      · simp [subscriptions, subscriptions_logs]
      · rfl
    simp [subscriptions, subscriptions_append, subscriptions_forwardEvents, subscriptions_logs,
      htail]

/-- C9, as stated, fails: on the failing script the subscription succeeds, the partition
consumer reports a read error, and the call returns nil, no log line carrying the error. -/
theorem ListenKafkaMessages_read_error_unreported :
    (scripted.ConsumePartition session5.saramaConsumer "orders" 0 OffsetNewest
      (start failing).client).1 = .ok 1 ∧
    scripted.Errors 1 failing = ["read tcp: connection reset by peer"] ∧
    (ConsumerKafka.ListenKafkaMessages scripted session5 "orders" ⟨7, none⟩ 5
      (start failing)).1 = .returned none ∧
    logs (ConsumerKafka.ListenKafkaMessages scripted session5 "orders" ⟨7, none⟩ 5
      (start failing)).2.2.trace =
      [.logrusInfof "Received message: %+v\n" [.bytesAsString [111, 107]],
        .logrusInfof "Channel closed, exiting" [],
        .logrusInfo "ConsumerKafka closed"] :=
  ⟨rfl, rfl, by decide, by decide⟩

/-- C9, amended: after a successful subscription `ListenKafkaMessages` never returns a non-nil
error, and its outcome and effects do not depend on what the partition consumer reports on
its `Errors()` channel. -/
theorem ListenKafkaMessages_never_reports_read_error {σ : Type} (S : Sarama σ)
    (c : ConsumerKafka) (topicName : String) (message : OutChan) (fuel : Nat) (w : World σ)
    (p : PartHandle) (E : PartHandle → σ → List GoError)
    (hsub : (S.ConsumePartition c.saramaConsumer topicName 0 OffsetNewest w.client).1 = .ok p) :
    (∀ e : GoError, (ConsumerKafka.ListenKafkaMessages S c topicName message fuel w).1 ≠
      .returned (some e)) ∧
    ConsumerKafka.ListenKafkaMessages { S with Errors := E } c topicName message fuel w =
      ConsumerKafka.ListenKafkaMessages S c topicName message fuel w := by
  constructor
  · intro e he
    obtain ⟨ms, ls, tail, _, _, hcase⟩ := listen_ok S c topicName message fuel w p hsub
    rcases hcase with ⟨h1, _⟩ | ⟨h1, _⟩
    · rw [h1] at he; cases he
    · exact h1 _ he
  · simp [ConsumerKafka.ListenKafkaMessages, hsub, forwardLoop_ignores_errors, deferredClose]

/-- Witness of C9, amended: the failing script, with and without its reported error. -/
theorem ListenKafkaMessages_never_reports_read_error_witness :
    (scripted.ConsumePartition session5.saramaConsumer "orders" 0 OffsetNewest
      (start failing).client).1 = .ok 1 ∧
    (∀ e : GoError, (ConsumerKafka.ListenKafkaMessages scripted session5 "orders" ⟨7, none⟩ 5
      (start failing)).1 ≠ .returned (some e)) :=
  ⟨rfl, (ListenKafkaMessages_never_reports_read_error scripted session5 "orders" ⟨7, none⟩ 5
    (start failing) 1 (fun _ _ => []) rfl).1⟩

/-- C10: after a successful subscription, `ListenKafkaMessages` has returned only if the
Messages channel was found closed; then its result is nil and it has called `Close` on the
partition consumer exactly once, whatever that `Close` returned; while it has not returned it
has closed no partition consumer; and when the channel yields finitely many messages and is
then closed (the caller taking every send), a budget covering the run does make it return. -/
theorem ListenKafkaMessages_returns_nil_on_close {σ : Type} (S : Sarama σ) (c : ConsumerKafka)
    (topicName : String) (message : OutChan) (fuel : Nat) (w : World σ) (p : PartHandle)
    (hsub : (S.ConsumePartition c.saramaConsumer topicName 0 OffsetNewest w.client).1 = .ok p) :
    (∀ r, (ConsumerKafka.ListenKafkaMessages S c topicName message fuel w).1 = .returned r →
      r = none ∧
      (∃ ms, Yields S p ms
        (S.ConsumePartition c.saramaConsumer topicName 0 OffsetNewest w.client).2) ∧
      partitionCloses
        (added w (ConsumerKafka.ListenKafkaMessages S c topicName message fuel w).2.2) = [p]) ∧
    ((∀ r, (ConsumerKafka.ListenKafkaMessages S c topicName message fuel w).1 ≠ .returned r) →
      partitionCloses
        (added w (ConsumerKafka.ListenKafkaMessages S c topicName message fuel w).2.2) = []) ∧
    (∀ ms, Yields S p ms
        (S.ConsumePartition c.saramaConsumer topicName 0 OffsetNewest w.client).2 →
      message.accepts ms.length → ms.length < fuel →
      (ConsumerKafka.ListenKafkaMessages S c topicName message fuel w).1 = .returned none) := by
  obtain ⟨ms, ls, tail, _, ht, hcase⟩ := listen_ok S c topicName message fuel w p hsub
  refine ⟨?_, ?_, ?_⟩
  · intro r hr
    rcases hcase with ⟨h1, hy, ls1, rfl⟩ | ⟨h1, _⟩
    · rw [h1] at hr
      refine ⟨by cases hr; rfl, ⟨ms, hy⟩, ?_⟩
      rw [added_append w _ _ ht]
      simp [partitionCloses, partitionCloses_append, partitionCloses_forwardEvents,
        partitionCloses_logs]
    · exact absurd hr (h1 r)
  · intro hnot
    rcases hcase with ⟨h1, _⟩ | ⟨_, rfl⟩
    · exact absurd h1 (hnot none)
    · rw [added_append w _ _ ht]
      simp [partitionCloses, partitionCloses_append, partitionCloses_forwardEvents,
        partitionCloses_logs]
  · intro ms1 hy hroom hfuel
    exact (listen_closed S c topicName message fuel w p ms1 hsub hy hroom hfuel).1

/-- Witness of C10: on the healthy script closing the partition consumer fails; the error is
logged and the call still returns nil, the partition consumer closed once. -/
theorem ListenKafkaMessages_returns_nil_on_close_witness :
    (scripted.ConsumePartition session5.saramaConsumer "orders" 0 OffsetNewest
      (start healthy).client).1 = .ok 1 ∧
    (scripted.PartitionClose 1 healthy).1 = some "partition already closed" ∧
    (ConsumerKafka.ListenKafkaMessages scripted session5 "orders" ⟨7, none⟩ 3
      (start healthy)).1 = .returned none ∧
    partitionCloses (added (start healthy) (ConsumerKafka.ListenKafkaMessages scripted session5
      "orders" ⟨7, none⟩ 3 (start healthy)).2.2) = [1] :=
  ⟨rfl, rfl,
    (ListenKafkaMessages_returns_nil_on_close scripted session5 "orders" ⟨7, none⟩ 3
      (start healthy) 1 rfl).2.2 [orderAt 10, orderAt 11] ⟨rfl, rfl, rfl⟩ trivial (by decide),
    ((ListenKafkaMessages_returns_nil_on_close scripted session5 "orders" ⟨7, none⟩ 3
      (start healthy) 1 rfl).1 none rfl).2.2⟩

end Consumers
